import Mathlib

/-!
# Verification of the go-hue color-conversion engine

A shallow embedding of `colors.go` (package `hue`) and of the color entry
points of the light API.  Floating-point (`float64`) arithmetic is idealised
as exact arithmetic:

* the two-dimensional geometry (cross products, triangle containment,
  projection onto segments) is purely rational in the source, so it is
  embedded generically over a `LinearOrderedField`; it is instantiated at `ℚ`
  for exact, fully-evaluated statements and at `ℝ` inside the conversion
  pipelines;
* `math.Pow` with literal exponents `2.4` and `1.0/2.4` is embedded as real
  `rpow`, so the gamma pipelines (`ToXyY`, `ToRGB`) live over `ℝ`;
* `math.Sqrt` appears in the source only inside `distance`, whose results are
  only ever *compared*; since `Real.sqrt` is monotone on nonnegative inputs,
  a comparison of two distances is equivalent to the comparison of the two
  squared distances, and `closestPointOnTriangle` is embedded with squared
  distances (`dist2`).  Theorems about it state minimality in terms of the
  genuine Euclidean distance `Real.sqrt (dist2 _ _)`;
* a float division `a/b` is a defined real number exactly when `b ≠ 0`; in
  `ToXyY` the source guards the only possible NaN (`0/0`) with `math.IsNaN`
  checks, which is embedded as the corresponding zero test; `ToRGB` has no
  guard and its result is undefined (NaN/Inf-contaminated) when the
  post-clamp `y` is `0`, which is embedded by returning `none`.
-/

namespace hue

/-- `point` is an x-y coordinate (source: `colors.go`, `type point struct`). -/
structure point (K : Type) where
  x : K
  y : K
deriving DecidableEq

/-- `Gamut` is a color gamut: the three triangle vertices
(source: `colors.go`, `type Gamut struct`). -/
structure Gamut (K : Type) where
  red : point K
  green : point K
  blue : point K
deriving DecidableEq

variable {K : Type} [LinearOrderedField K]

/-- `crossProduct` calculates the cross product of two vectors
(source: `colors.go`, `func crossProduct`). -/
def crossProduct (p1 p2 : point K) : K :=
  p1.x * p2.y - p1.y * p2.x

/-- `inLampsReach` returns true if the given point is in the lamp's color
space (source: `colors.go`, `func (gamut *Gamut) inLampsReach`). -/
def Gamut.inLampsReach (gamut : Gamut K) (x y : K) : Bool :=
  let red := gamut.red
  let green := gamut.green
  let blue := gamut.blue
  let v1 : point K := ⟨green.x - red.x, green.y - red.y⟩
  let v2 : point K := ⟨blue.x - red.x, blue.y - red.y⟩
  let q : point K := ⟨x - red.x, y - red.y⟩
  let s := crossProduct q v2 / crossProduct v1 v2
  let t := crossProduct v1 q / crossProduct v1 v2
  decide (s ≥ 0) && decide (t ≥ 0) && decide (s + t ≤ 1)

/-- `closestPointOnLine` gets the point on line (a, b) closest to p
(source: `colors.go`, `func closestPointOnLine`): parametrise the segment as
`a + t·(b−a)`, clamp `t` to `[0,1]`. -/
def closestPointOnLine (a b p : point K) : point K :=
  let ap : point K := ⟨p.x - a.x, p.y - a.y⟩
  let ab : point K := ⟨b.x - a.x, b.y - a.y⟩
  let ab2 := ab.x * ab.x + ab.y * ab.y
  let apAb := ap.x * ab.x + ap.y * ab.y
  let t0 := apAb / ab2
  let t := if t0 < 0 then 0 else if t0 > 1 then 1 else t0
  ⟨a.x + ab.x * t, a.y + ab.y * t⟩

/-- Squared Euclidean distance.  The source (`colors.go`, `func distance`)
returns `math.Sqrt` of this quantity; the square root is only ever used in
comparisons of distances, and `Real.sqrt` is monotone on nonnegative reals,
so comparing `dist2` values is equivalent to comparing the source's
`distance` values. -/
def dist2 (a b : point K) : K :=
  let dx := a.x - b.x
  let dy := a.y - b.y
  dx * dx + dy * dy

/-- `closestPointOnTriangle` returns the closest point on the color triangle
to a given point p (source: `colors.go`,
`func (gamut *Gamut) closestPointOnTriangle`).  The source selects, via
`switch math.Min(math.Min(dAB, dAC), dBC)`, the first of `pAB, pAC, pBC`
(in that order) whose distance equals the minimum; that selection is
reproduced here with squared distances (see `dist2`): the first branch fires
exactly when `dAB` is the minimum, the second exactly when `dAC` is the
minimum and `dAB` is not. -/
def Gamut.closestPointOnTriangle (gamut : Gamut K) (x y : K) : point K :=
  let p : point K := ⟨x, y⟩
  let pAB := closestPointOnLine gamut.red gamut.green p
  let pAC := closestPointOnLine gamut.blue gamut.red p
  let pBC := closestPointOnLine gamut.green gamut.blue p
  let dAB := dist2 p pAB
  let dAC := dist2 p pAC
  let dBC := dist2 p pBC
  if dAB ≤ dAC ∧ dAB ≤ dBC then pAB
  else if dAC ≤ dBC then pAC
  else pBC

/-- LivingColors Iris, Bloom, Aura, LightStrips (source: `colors.go`, `var gamutA`). -/
def gamutA : Gamut K :=
  { red := ⟨0.704, 0.296⟩, green := ⟨0.2151, 0.7106⟩, blue := ⟨0.138, 0.08⟩ }

/-- Original Hue bulbs (source: `colors.go`, `var gamutB`). -/
def gamutB : Gamut K :=
  { red := ⟨0.675, 0.322⟩, green := ⟨0.4091, 0.518⟩, blue := ⟨0.167, 0.04⟩ }

/-- Hue Gen 3, Hue Go, LightStrips plus, BR30 (source: `colors.go`, `var gamutC`). -/
def gamutC : Gamut K :=
  { red := ⟨0.692, 0.308⟩, green := ⟨0.17, 0.7⟩, blue := ⟨0.153, 0.048⟩ }

/-- Default space (source: `colors.go`, `var gamutD`). -/
def gamutD : Gamut K :=
  { red := ⟨1.0, 0.0⟩, green := ⟨0.0, 1.0⟩, blue := ⟨0.0, 0.0⟩ }

/-- `GetGamut` gets the color gamut for a particular bulb model
(source: `colors.go`, `func GetGamut`); the `switch` on the model string is
embedded as an if-chain over the same case lists, with the same `default`. -/
def GetGamut (model : String) : Gamut K :=
  if model = "LST001" ∨ model = "LLC010" ∨ model = "LLC011" ∨ model = "LLC012" ∨
     model = "LLC006" ∨ model = "LLC007" ∨ model = "LLC013" then gamutA
  else if model = "LCT001" ∨ model = "LCT007" ∨ model = "LCT002" ∨ model = "LCT003" ∨
     model = "LLM001" then gamutB
  else if model = "LCT010" ∨ model = "LCT014" ∨ model = "LCT011" ∨ model = "LLC020" ∨
     model = "LST002" then gamutC
  else gamutD

/-- The inverse sRGB gamma correction applied to each scaled channel inside
`Gamut.ToXyY` (source: `colors.go` lines 176-191; the identical three-way
repeated `if rf > 0.04045 { ... } else { rf /= 12.92 }` blocks are factored
into this helper).  `math.Pow` with the literal exponent `2.4` is idealised
as real `rpow`. -/
noncomputable def gammaDecode (c : ℝ) : ℝ :=
  if c > 0.04045 then ((c + 0.055) / (1.0 + 0.055)) ^ (2.4 : ℝ)
  else c / 12.92

/-- The forward sRGB gamma correction applied to each linear channel inside
`Gamut.ToRGB` (source: `colors.go` lines 234-249, three identical blocks
factored into this helper).  `math.Pow(c, 1.0/2.4)` is idealised as real
`rpow`; inside `ToRGB` it is only reached when `c > 0.0031308 > 0`. -/
noncomputable def gammaEncode (c : ℝ) : ℝ :=
  if c ≤ 0.0031308 then c * 12.92
  else (1.0 + 0.055) * c ^ ((1.0 : ℝ) / 2.4) - 0.055

/-- `ToXyY` converts a 24-bit RGB value into a value in the CIE xyY color
space (source: `colors.go`, `func (gamut *Gamut) ToXyY`).  The source
computes `x := X/(X+Y+Z)` and replaces the result by `0` when
`math.IsNaN(x)`; for finite operands the quotient is NaN exactly when both
numerator and denominator are `0`, which is the embedded guard condition
(for channels in `0..255` all of `X, Y, Z` are nonnegative, so a zero
denominator forces a zero numerator and real division by zero never occurs
apart from the guarded case). -/
noncomputable def Gamut.ToXyY (gamut : Gamut ℝ) (r g b : ℤ) : ℝ × ℝ × ℝ :=
  let rf := gammaDecode ((r : ℝ) / 255.0)
  let gf := gammaDecode ((g : ℝ) / 255.0)
  let bf := gammaDecode ((b : ℝ) / 255.0)
  let X := rf * 0.664511 + gf * 0.154324 + bf * 0.162028
  let Y := rf * 0.283881 + gf * 0.668433 + bf * 0.047685
  let Z := rf * 0.000088 + gf * 0.072310 + bf * 0.986039
  let x := if X = 0 ∧ X + Y + Z = 0 then 0 else X / (X + Y + Z)
  let y := if Y = 0 ∧ X + Y + Z = 0 then 0 else Y / (X + Y + Z)
  if gamut.inLampsReach x y then (x, y, Y)
  else
    let p := gamut.closestPointOnTriangle x y
    (p.x, p.y, Y)

/-- `ToRGB` converts an XY value in the CIE into a 24-bit RGB value
(source: `colors.go`, `func (gamut *Gamut) ToRGB`).  The source computes
`X := (Y/y)*x` with no guard; when the post-clamp `y` is zero the float
division produces Inf/NaN which contaminates every later step and the final
`uint8` conversions are not defined numeric results — that undefined outcome
is embedded as `none`.  For defined results the three channels are the
integers `⌈c*255 − 0.5⌉` produced by `uint8(math.Ceil(c*255.0 - 0.5))`
(which agree whenever the argument lies in `(-1, 255]`, as it does in every
defined evaluation proved below). -/
noncomputable def Gamut.ToRGB (gamut : Gamut ℝ) (x y bri : ℝ) : Option (ℤ × ℤ × ℤ) :=
  let q : ℝ × ℝ :=
    if gamut.inLampsReach x y then (x, y)
    else
      let p := gamut.closestPointOnTriangle x y
      (p.x, p.y)
  if q.2 = 0 then none
  else
    let z := 1.0 - q.1 - q.2
    let Y := bri
    let X := (Y / q.2) * q.1
    let Z := (Y / q.2) * z
    let rf := X * 1.656492 - Y * 0.354851 - Z * 0.255038
    let gf := -X * 0.707196 + Y * 1.655397 + Z * 0.036152
    let bf := X * 0.051713 - Y * 0.121364 + Z * 1.011530
    let rg := gammaEncode rf
    let gg := gammaEncode gf
    let bg := gammaEncode bf
    let m := max (max rg gg) bg
    let w : ℝ × ℝ × ℝ := if m > 1 then (rg / m, gg / m, bg / m) else (rg, gg, bg)
    some (⌈w.1 * 255.0 - 0.5⌉, ⌈w.2.1 * 255.0 - 0.5⌉, ⌈w.2.2 * 255.0 - 0.5⌉)

/-- `SetColorRGB` sets a light's color from an RGB value (source: `meethue.go`
part, `func (l *Light) SetColorRGB`): it selects the gamut from the light's
model string, converts through `ToXyY` and stores the chromaticity together
with the wire brightness `int(math.Ceil(Y*255.0 - 0.5))`.  The embedded
function returns the stored `(x, y, brightness)` triple. -/
noncomputable def Light.SetColorRGB (model : String) (r g b : ℤ) : ℝ × ℝ × ℤ :=
  let gamut : Gamut ℝ := GetGamut model
  let v := gamut.ToXyY r g b
  (v.1, v.2.1, ⌈v.2.2 * 255.0 - 0.5⌉)

/-! ## Basic unfolding lemmas -/

/-- Propositional characterisation of the containment test. -/
lemma inLampsReach_iff (g : Gamut K) (x y : K) :
    g.inLampsReach x y = true ↔
      (0 ≤ crossProduct ⟨x - g.red.x, y - g.red.y⟩
             ⟨g.blue.x - g.red.x, g.blue.y - g.red.y⟩ /
           crossProduct ⟨g.green.x - g.red.x, g.green.y - g.red.y⟩
             ⟨g.blue.x - g.red.x, g.blue.y - g.red.y⟩ ∧
       0 ≤ crossProduct ⟨g.green.x - g.red.x, g.green.y - g.red.y⟩
             ⟨x - g.red.x, y - g.red.y⟩ /
           crossProduct ⟨g.green.x - g.red.x, g.green.y - g.red.y⟩
             ⟨g.blue.x - g.red.x, g.blue.y - g.red.y⟩ ∧
       crossProduct ⟨x - g.red.x, y - g.red.y⟩
             ⟨g.blue.x - g.red.x, g.blue.y - g.red.y⟩ /
           crossProduct ⟨g.green.x - g.red.x, g.green.y - g.red.y⟩
             ⟨g.blue.x - g.red.x, g.blue.y - g.red.y⟩ +
         crossProduct ⟨g.green.x - g.red.x, g.green.y - g.red.y⟩
             ⟨x - g.red.x, y - g.red.y⟩ /
           crossProduct ⟨g.green.x - g.red.x, g.green.y - g.red.y⟩
             ⟨g.blue.x - g.red.x, g.blue.y - g.red.y⟩ ≤ 1) := by
  simp [Gamut.inLampsReach, Bool.and_eq_true, decide_eq_true_eq, ge_iff_le, and_assoc]

lemma inLampsReach_eq_false_iff (g : Gamut K) (x y : K) :
    g.inLampsReach x y = false ↔ ¬ (g.inLampsReach x y = true) := by
  cases h : g.inLampsReach x y <;> simp

/-! ## C7 -/

/-- C7: `GetGamut` is a pure total lookup: for every model string it returns
one of the four fixed gamuts, every string outside the fixed 17-entry table
deterministically yields the default gamut D, and gamut D is the triangle
with vertices red=(1,0), green=(0,1), blue=(0,0). -/
theorem C7_GetGamut_total_lookup :
    (∀ s : String, GetGamut (K := ℚ) s = gamutA ∨ GetGamut (K := ℚ) s = gamutB ∨
      GetGamut (K := ℚ) s = gamutC ∨ GetGamut (K := ℚ) s = gamutD) ∧
    (∀ s : String,
      s ∉ (["LST001", "LLC010", "LLC011", "LLC012", "LLC006", "LLC007", "LLC013",
            "LCT001", "LCT007", "LCT002", "LCT003", "LLM001",
            "LCT010", "LCT014", "LCT011", "LLC020", "LST002"] : List String) →
      GetGamut (K := ℚ) s = gamutD) ∧
    (gamutD : Gamut ℚ) = ⟨⟨1, 0⟩, ⟨0, 1⟩, ⟨0, 0⟩⟩ := by
  refine ⟨fun s => ?_, fun s hs => ?_, by norm_num [gamutD]⟩
  · unfold GetGamut
    split_ifs <;> tauto
  · simp only [List.mem_cons, List.not_mem_nil, or_false] at hs
    push_neg at hs
    unfold GetGamut
    rw [if_neg, if_neg, if_neg] <;> tauto

/-- Witness for C7: a model identifier outside the table resolves to gamut D. -/
theorem C7_GetGamut_total_lookup_witness :
    GetGamut (K := ℚ) "UNKNOWN-MODEL" = gamutD :=
  C7_GetGamut_total_lookup.2.1 "UNKNOWN-MODEL" (by decide)

/-! ## C10 -/

/-- The luminance component returned by `ToXyY`, independent of any gamut. -/
lemma ToXyY_lum (g : Gamut ℝ) (r gc b : ℤ) :
    (g.ToXyY r gc b).2.2 =
      gammaDecode ((r : ℝ) / 255.0) * 0.283881 +
      gammaDecode ((gc : ℝ) / 255.0) * 0.668433 +
      gammaDecode ((b : ℝ) / 255.0) * 0.047685 := by
  simp only [Gamut.ToXyY]
  split <;> split <;> split <;> rfl

/-- C10: the luminance output `Y` of `ToXyY` is the same under any two
gamuts: the gamut argument only influences the chromaticity pair via
clamping, never `Y`. -/
theorem C10_lum_gamut_independent (g1 g2 : Gamut ℝ) (r g b : ℤ) :
    (g1.ToXyY r g b).2.2 = (g2.ToXyY r g b).2.2 := by
  rw [ToXyY_lum, ToXyY_lum]

/-! ## C8 -/

/-- The centroid of a gamut triangle (average of the three vertices), the
test point named by the specification. -/
def Gamut.centroid (g : Gamut K) : point K :=
  ⟨(g.red.x + g.green.x + g.blue.x) / 3, (g.red.y + g.green.y + g.blue.y) / 3⟩

/-- C8: for each of the four shipped gamuts the containment test accepts the
gamut's own three vertices and its centroid, and rejects the far-outside
point (2, 2). -/
theorem C8_containment_vertices_centroid_outside :
    (gamutA : Gamut ℚ).inLampsReach (gamutA : Gamut ℚ).red.x (gamutA : Gamut ℚ).red.y = true ∧
    (gamutA : Gamut ℚ).inLampsReach (gamutA : Gamut ℚ).green.x (gamutA : Gamut ℚ).green.y = true ∧
    (gamutA : Gamut ℚ).inLampsReach (gamutA : Gamut ℚ).blue.x (gamutA : Gamut ℚ).blue.y = true ∧
    (gamutA : Gamut ℚ).inLampsReach (gamutA : Gamut ℚ).centroid.x (gamutA : Gamut ℚ).centroid.y = true ∧
    (gamutA : Gamut ℚ).inLampsReach 2 2 = false ∧
    (gamutB : Gamut ℚ).inLampsReach (gamutB : Gamut ℚ).red.x (gamutB : Gamut ℚ).red.y = true ∧
    (gamutB : Gamut ℚ).inLampsReach (gamutB : Gamut ℚ).green.x (gamutB : Gamut ℚ).green.y = true ∧
    (gamutB : Gamut ℚ).inLampsReach (gamutB : Gamut ℚ).blue.x (gamutB : Gamut ℚ).blue.y = true ∧
    (gamutB : Gamut ℚ).inLampsReach (gamutB : Gamut ℚ).centroid.x (gamutB : Gamut ℚ).centroid.y = true ∧
    (gamutB : Gamut ℚ).inLampsReach 2 2 = false ∧
    (gamutC : Gamut ℚ).inLampsReach (gamutC : Gamut ℚ).red.x (gamutC : Gamut ℚ).red.y = true ∧
    (gamutC : Gamut ℚ).inLampsReach (gamutC : Gamut ℚ).green.x (gamutC : Gamut ℚ).green.y = true ∧
    (gamutC : Gamut ℚ).inLampsReach (gamutC : Gamut ℚ).blue.x (gamutC : Gamut ℚ).blue.y = true ∧
    (gamutC : Gamut ℚ).inLampsReach (gamutC : Gamut ℚ).centroid.x (gamutC : Gamut ℚ).centroid.y = true ∧
    (gamutC : Gamut ℚ).inLampsReach 2 2 = false ∧
    (gamutD : Gamut ℚ).inLampsReach (gamutD : Gamut ℚ).red.x (gamutD : Gamut ℚ).red.y = true ∧
    (gamutD : Gamut ℚ).inLampsReach (gamutD : Gamut ℚ).green.x (gamutD : Gamut ℚ).green.y = true ∧
    (gamutD : Gamut ℚ).inLampsReach (gamutD : Gamut ℚ).blue.x (gamutD : Gamut ℚ).blue.y = true ∧
    (gamutD : Gamut ℚ).inLampsReach (gamutD : Gamut ℚ).centroid.x (gamutD : Gamut ℚ).centroid.y = true ∧
    (gamutD : Gamut ℚ).inLampsReach 2 2 = false := by
  refine ⟨?_, ?_, ?_, ?_, ?_, ?_, ?_, ?_, ?_, ?_, ?_, ?_, ?_, ?_, ?_, ?_, ?_, ?_, ?_, ?_⟩
  · rw [inLampsReach_iff]
    norm_num [crossProduct, gamutA, Gamut.centroid]
  · rw [inLampsReach_iff]
    norm_num [crossProduct, gamutA, Gamut.centroid]
  · rw [inLampsReach_iff]
    norm_num [crossProduct, gamutA, Gamut.centroid]
  · rw [inLampsReach_iff]
    norm_num [crossProduct, gamutA, Gamut.centroid]
  · rw [inLampsReach_eq_false_iff, inLampsReach_iff]
    norm_num [crossProduct, gamutA]
  · rw [inLampsReach_iff]
    norm_num [crossProduct, gamutB, Gamut.centroid]
  · rw [inLampsReach_iff]
    norm_num [crossProduct, gamutB, Gamut.centroid]
  · rw [inLampsReach_iff]
    norm_num [crossProduct, gamutB, Gamut.centroid]
  · rw [inLampsReach_iff]
    norm_num [crossProduct, gamutB, Gamut.centroid]
  · rw [inLampsReach_eq_false_iff, inLampsReach_iff]
    norm_num [crossProduct, gamutB]
  · rw [inLampsReach_iff]
    norm_num [crossProduct, gamutC, Gamut.centroid]
  · rw [inLampsReach_iff]
    norm_num [crossProduct, gamutC, Gamut.centroid]
  · rw [inLampsReach_iff]
    norm_num [crossProduct, gamutC, Gamut.centroid]
  · rw [inLampsReach_iff]
    norm_num [crossProduct, gamutC, Gamut.centroid]
  · rw [inLampsReach_eq_false_iff, inLampsReach_iff]
    norm_num [crossProduct, gamutC]
  · rw [inLampsReach_iff]
    norm_num [crossProduct, gamutD, Gamut.centroid]
  · rw [inLampsReach_iff]
    norm_num [crossProduct, gamutD, Gamut.centroid]
  · rw [inLampsReach_iff]
    norm_num [crossProduct, gamutD, Gamut.centroid]
  · rw [inLampsReach_iff]
    norm_num [crossProduct, gamutD, Gamut.centroid]
  · rw [inLampsReach_eq_false_iff, inLampsReach_iff]
    norm_num [crossProduct, gamutD]

/-! ## C3 and C9: geometry of the projection -/

lemma dist2_nonneg (a b : point K) : 0 ≤ dist2 a b :=
  add_nonneg (mul_self_nonneg _) (mul_self_nonneg _)

lemma dist2_eq_zero_iff (a b : point K) : dist2 a b = 0 ↔ a = b := by
  simp only [dist2]
  constructor
  · intro h
    have hx : (a.x - b.x) * (a.x - b.x) = 0 := by
      nlinarith [mul_self_nonneg (a.x - b.x), mul_self_nonneg (a.y - b.y)]
    have hy : (a.y - b.y) * (a.y - b.y) = 0 := by
      nlinarith [mul_self_nonneg (a.x - b.x), mul_self_nonneg (a.y - b.y)]
    have hx2 : a.x = b.x := by
      have := mul_self_eq_zero.mp hx
      linarith [sub_eq_zero.mp this]
    have hy2 : a.y = b.y := by
      have := mul_self_eq_zero.mp hy
      linarith [sub_eq_zero.mp this]
    cases a
    cases b
    simp_all
  · intro h
    subst h
    ring

/-- Branch structure of `closestPointOnTriangle`: the first projection whose
squared distance attains the minimum (in evaluation order pAB, pAC, pBC) is
returned. -/
lemma closestPointOnTriangle_spec (g : Gamut K) (x y : K) :
    (dist2 ⟨x, y⟩ (closestPointOnLine g.red g.green ⟨x, y⟩) ≤ dist2 ⟨x, y⟩ (closestPointOnLine g.blue g.red ⟨x, y⟩) ∧
       dist2 ⟨x, y⟩ (closestPointOnLine g.red g.green ⟨x, y⟩) ≤ dist2 ⟨x, y⟩ (closestPointOnLine g.green g.blue ⟨x, y⟩) → g.closestPointOnTriangle x y = closestPointOnLine g.red g.green ⟨x, y⟩) ∧
    (¬(dist2 ⟨x, y⟩ (closestPointOnLine g.red g.green ⟨x, y⟩) ≤ dist2 ⟨x, y⟩ (closestPointOnLine g.blue g.red ⟨x, y⟩) ∧
       dist2 ⟨x, y⟩ (closestPointOnLine g.red g.green ⟨x, y⟩) ≤ dist2 ⟨x, y⟩ (closestPointOnLine g.green g.blue ⟨x, y⟩)) →
      (dist2 ⟨x, y⟩ (closestPointOnLine g.blue g.red ⟨x, y⟩) ≤ dist2 ⟨x, y⟩ (closestPointOnLine g.green g.blue ⟨x, y⟩) → g.closestPointOnTriangle x y = closestPointOnLine g.blue g.red ⟨x, y⟩) ∧
      (¬(dist2 ⟨x, y⟩ (closestPointOnLine g.blue g.red ⟨x, y⟩) ≤ dist2 ⟨x, y⟩ (closestPointOnLine g.green g.blue ⟨x, y⟩)) → g.closestPointOnTriangle x y = closestPointOnLine g.green g.blue ⟨x, y⟩)) := by
  simp only [Gamut.closestPointOnTriangle]
  split_ifs with h1 h2 <;> constructor <;> try tauto

/-- The returned point is one of the three projections and attains the
minimal squared distance among them. -/
lemma closestPointOnTriangle_min (g : Gamut K) (x y : K) :
    (g.closestPointOnTriangle x y = closestPointOnLine g.red g.green ⟨x, y⟩ ∨ g.closestPointOnTriangle x y = closestPointOnLine g.blue g.red ⟨x, y⟩ ∨ g.closestPointOnTriangle x y = closestPointOnLine g.green g.blue ⟨x, y⟩) ∧
    dist2 ⟨x, y⟩ (g.closestPointOnTriangle x y) ≤ dist2 ⟨x, y⟩ (closestPointOnLine g.red g.green ⟨x, y⟩) ∧
    dist2 ⟨x, y⟩ (g.closestPointOnTriangle x y) ≤ dist2 ⟨x, y⟩ (closestPointOnLine g.blue g.red ⟨x, y⟩) ∧
    dist2 ⟨x, y⟩ (g.closestPointOnTriangle x y) ≤ dist2 ⟨x, y⟩ (closestPointOnLine g.green g.blue ⟨x, y⟩) := by
  simp only [Gamut.closestPointOnTriangle]
  split_ifs with h1 h2
  · exact ⟨Or.inl rfl, le_refl _, h1.1, h1.2⟩
  · push_neg at h1
    refine ⟨Or.inr (Or.inl rfl), ?_, le_refl _, h2⟩
    by_cases hc : dist2 ⟨x, y⟩ (closestPointOnLine g.red g.green ⟨x, y⟩) ≤ dist2 ⟨x, y⟩ (closestPointOnLine g.blue g.red ⟨x, y⟩)
    · have := h1 hc
      linarith
    · linarith
  · push_neg at h1 h2
    refine ⟨Or.inr (Or.inr rfl), ?_, by linarith, le_refl _⟩
    by_cases hc : dist2 ⟨x, y⟩ (closestPointOnLine g.red g.green ⟨x, y⟩) ≤ dist2 ⟨x, y⟩ (closestPointOnLine g.blue g.red ⟨x, y⟩)
    · have := h1 hc
      linarith
    · linarith

/-- C3: for every (nondegenerate, per the spec invariant) gamut and every
point, `closestPointOnTriangle` returns one of the three edge projections,
its Euclidean distance to the input is minimal among the three, and ties are
broken by the evaluation order red-green, blue-red, green-blue (the first
projection attaining the minimum is returned).  Distances are the genuine
Euclidean ones (`Real.sqrt` of the squared distance); the nondegeneracy
hypothesis records the spec's invariant that gamut vertices are
non-collinear (it is what makes the source's float evaluation NaN-free, so
the idealised model is faithful exactly on this domain). -/
theorem C3_closestPointOnTriangle_minimal (g : Gamut ℚ) (x y : ℚ)
    (_hnd : crossProduct ⟨g.green.x - g.red.x, g.green.y - g.red.y⟩
        ⟨g.blue.x - g.red.x, g.blue.y - g.red.y⟩ ≠ 0) :
    (g.closestPointOnTriangle x y = closestPointOnLine g.red g.green ⟨x, y⟩ ∨ g.closestPointOnTriangle x y = closestPointOnLine g.blue g.red ⟨x, y⟩ ∨ g.closestPointOnTriangle x y = closestPointOnLine g.green g.blue ⟨x, y⟩) ∧
    Real.sqrt (((dist2 ⟨x, y⟩ (g.closestPointOnTriangle x y) : ℚ) : ℝ)) ≤ Real.sqrt (((dist2 ⟨x, y⟩ (closestPointOnLine g.red g.green ⟨x, y⟩) : ℚ) : ℝ)) ∧
    Real.sqrt (((dist2 ⟨x, y⟩ (g.closestPointOnTriangle x y) : ℚ) : ℝ)) ≤ Real.sqrt (((dist2 ⟨x, y⟩ (closestPointOnLine g.blue g.red ⟨x, y⟩) : ℚ) : ℝ)) ∧
    Real.sqrt (((dist2 ⟨x, y⟩ (g.closestPointOnTriangle x y) : ℚ) : ℝ)) ≤ Real.sqrt (((dist2 ⟨x, y⟩ (closestPointOnLine g.green g.blue ⟨x, y⟩) : ℚ) : ℝ)) ∧
    (Real.sqrt (((dist2 ⟨x, y⟩ (closestPointOnLine g.red g.green ⟨x, y⟩) : ℚ) : ℝ)) ≤ Real.sqrt (((dist2 ⟨x, y⟩ (closestPointOnLine g.blue g.red ⟨x, y⟩) : ℚ) : ℝ)) ∧ Real.sqrt (((dist2 ⟨x, y⟩ (closestPointOnLine g.red g.green ⟨x, y⟩) : ℚ) : ℝ)) ≤ Real.sqrt (((dist2 ⟨x, y⟩ (closestPointOnLine g.green g.blue ⟨x, y⟩) : ℚ) : ℝ)) → g.closestPointOnTriangle x y = closestPointOnLine g.red g.green ⟨x, y⟩) ∧
    (¬(Real.sqrt (((dist2 ⟨x, y⟩ (closestPointOnLine g.red g.green ⟨x, y⟩) : ℚ) : ℝ)) ≤ Real.sqrt (((dist2 ⟨x, y⟩ (closestPointOnLine g.blue g.red ⟨x, y⟩) : ℚ) : ℝ)) ∧ Real.sqrt (((dist2 ⟨x, y⟩ (closestPointOnLine g.red g.green ⟨x, y⟩) : ℚ) : ℝ)) ≤ Real.sqrt (((dist2 ⟨x, y⟩ (closestPointOnLine g.green g.blue ⟨x, y⟩) : ℚ) : ℝ))) →
      (Real.sqrt (((dist2 ⟨x, y⟩ (closestPointOnLine g.blue g.red ⟨x, y⟩) : ℚ) : ℝ)) ≤ Real.sqrt (((dist2 ⟨x, y⟩ (closestPointOnLine g.green g.blue ⟨x, y⟩) : ℚ) : ℝ)) → g.closestPointOnTriangle x y = closestPointOnLine g.blue g.red ⟨x, y⟩) ∧
      (¬(Real.sqrt (((dist2 ⟨x, y⟩ (closestPointOnLine g.blue g.red ⟨x, y⟩) : ℚ) : ℝ)) ≤ Real.sqrt (((dist2 ⟨x, y⟩ (closestPointOnLine g.green g.blue ⟨x, y⟩) : ℚ) : ℝ))) → g.closestPointOnTriangle x y = closestPointOnLine g.green g.blue ⟨x, y⟩)) := by
  have hmin := closestPointOnTriangle_min g x y
  have hspec := closestPointOnTriangle_spec g x y
  have hb : ∀ u v : point ℚ,
      (Real.sqrt ((dist2 ⟨x, y⟩ u : ℚ) : ℝ) ≤ Real.sqrt ((dist2 ⟨x, y⟩ v : ℚ) : ℝ)) ↔
        dist2 ⟨x, y⟩ u ≤ dist2 ⟨x, y⟩ v := by
    intro u v
    rw [Real.sqrt_le_sqrt_iff (by exact_mod_cast dist2_nonneg _ _), Rat.cast_le]
  refine ⟨hmin.1, (hb _ _).mpr hmin.2.1, (hb _ _).mpr hmin.2.2.1,
    (hb _ _).mpr hmin.2.2.2, ?_, ?_⟩
  · intro h
    exact hspec.1 ⟨(hb _ _).mp h.1, (hb _ _).mp h.2⟩
  · intro h
    have hn : ¬(dist2 ⟨x, y⟩ (closestPointOnLine g.red g.green ⟨x, y⟩) ≤ dist2 ⟨x, y⟩ (closestPointOnLine g.blue g.red ⟨x, y⟩) ∧
        dist2 ⟨x, y⟩ (closestPointOnLine g.red g.green ⟨x, y⟩) ≤ dist2 ⟨x, y⟩ (closestPointOnLine g.green g.blue ⟨x, y⟩)) :=
      fun hc => h ⟨(hb _ _).mpr hc.1, (hb _ _).mpr hc.2⟩
    exact ⟨fun h2 => (hspec.2 hn).1 ((hb _ _).mp h2),
      fun h2 => (hspec.2 hn).2 fun hc => h2 ((hb _ _).mpr hc)⟩

/-- Witness for C3: instantiation at gamut B and the outside point (2, 2). -/
theorem C3_closestPointOnTriangle_minimal_witness :
    (gamutB : Gamut ℚ).closestPointOnTriangle 2 2 =
        closestPointOnLine (gamutB : Gamut ℚ).red (gamutB : Gamut ℚ).green ⟨2, 2⟩ ∨
      (gamutB : Gamut ℚ).closestPointOnTriangle 2 2 =
        closestPointOnLine (gamutB : Gamut ℚ).blue (gamutB : Gamut ℚ).red ⟨2, 2⟩ ∨
      (gamutB : Gamut ℚ).closestPointOnTriangle 2 2 =
        closestPointOnLine (gamutB : Gamut ℚ).green (gamutB : Gamut ℚ).blue ⟨2, 2⟩ :=
  (C3_closestPointOnTriangle_minimal (gamutB : Gamut ℚ) 2 2
    (by norm_num [crossProduct, gamutB])).1

/-- Membership of a point on a closed edge segment `[a, b]`, in the
parametrisation `a + t·(b−a)`, `t ∈ [0,1]`, used by the spec. -/
def OnEdge (a b p : point K) : Prop :=
  ∃ t : K, 0 ≤ t ∧ t ≤ 1 ∧ p = ⟨a.x + (b.x - a.x) * t, a.y + (b.y - a.y) * t⟩

/-- Projecting a point of the segment `[a, b]` onto that segment (with
distinct endpoints) returns the point itself. -/
lemma closestPointOnLine_of_onEdge (a b p : point K) (hab : a ≠ b)
    (h : OnEdge a b p) : closestPointOnLine a b p = p := by
  obtain ⟨t, h0, h1, rfl⟩ := h
  have hab2 : (b.x - a.x) * (b.x - a.x) + (b.y - a.y) * (b.y - a.y) ≠ 0 := by
    intro hz
    apply hab
    have := (dist2_eq_zero_iff (⟨b.x, b.y⟩ : point K) ⟨a.x, a.y⟩).mp (by simp only [dist2]; linarith)
    cases a
    cases b
    simp_all [point.mk.injEq]
  simp only [closestPointOnLine]
  have harg : (a.x + (b.x - a.x) * t - a.x) * (b.x - a.x) +
      (a.y + (b.y - a.y) * t - a.y) * (b.y - a.y) =
      t * ((b.x - a.x) * (b.x - a.x) + (b.y - a.y) * (b.y - a.y)) := by ring
  rw [harg, mul_div_assoc, div_self hab2, mul_one]
  rw [if_neg (by linarith), if_neg (by linarith)]

/-- C9 counterexample: the centroid (1/3, 1/3) of the default gamut D is
contained in the gamut, yet `closestPointOnTriangle` moves it to (1/2, 1/2),
the projection onto the red-green edge — so the claim fails for interior
points. -/
theorem C9_counterexample_interior_point_moves :
    (gamutD : Gamut ℚ).inLampsReach (1/3) (1/3) = true ∧
    (gamutD : Gamut ℚ).closestPointOnTriangle (1/3) (1/3) = ⟨1/2, 1/2⟩ ∧
    (⟨1/2, 1/2⟩ : point ℚ) ≠ ⟨1/3, 1/3⟩ := by
  refine ⟨?_, ?_, ?_⟩
  · rw [inLampsReach_iff]
    norm_num [crossProduct, gamutD]
  · norm_num [Gamut.closestPointOnTriangle, closestPointOnLine, dist2, gamutD, point.mk.injEq]
  · intro h
    rw [point.mk.injEq] at h
    norm_num at h

/-- C9 (amended): `closestPointOnTriangle` fixes exactly the points of the
triangle's boundary: for a gamut with pairwise distinct vertices, any point
lying on one of the three closed edges is returned unchanged.  (For interior
points the original claim is false, see the counterexample: the function
always projects onto the edges.) -/
theorem C9_boundary_points_fixed (g : Gamut ℚ) (p : point ℚ)
    (h1 : g.red ≠ g.green) (h2 : g.blue ≠ g.red) (h3 : g.green ≠ g.blue)
    (hb : OnEdge g.red g.green p ∨ OnEdge g.blue g.red p ∨ OnEdge g.green g.blue p) :
    g.closestPointOnTriangle p.x p.y = p := by
  have hmin := closestPointOnTriangle_min g p.x p.y
  have hp : (⟨p.x, p.y⟩ : point ℚ) = p := rfl
  rw [hp] at hmin
  have hzero : dist2 p (g.closestPointOnTriangle p.x p.y) = 0 := by
    rcases hb with h | h | h
    · have he := closestPointOnLine_of_onEdge g.red g.green p h1 h
      have := hmin.2.1
      rw [he] at this
      have hd0 : dist2 p p = 0 := by simp only [dist2]; ring
      have := le_antisymm (by linarith [hd0]) (dist2_nonneg p _)
      linarith [dist2_nonneg p (g.closestPointOnTriangle p.x p.y), this]
    · have he := closestPointOnLine_of_onEdge g.blue g.red p h2 h
      have := hmin.2.2.1
      rw [he] at this
      have hd0 : dist2 p p = 0 := by simp only [dist2]; ring
      linarith [dist2_nonneg p (g.closestPointOnTriangle p.x p.y)]
    · have he := closestPointOnLine_of_onEdge g.green g.blue p h3 h
      have := hmin.2.2.2
      rw [he] at this
      have hd0 : dist2 p p = 0 := by simp only [dist2]; ring
      linarith [dist2_nonneg p (g.closestPointOnTriangle p.x p.y)]
  exact ((dist2_eq_zero_iff _ _).mp hzero).symm

/-- Witness for C9: the red vertex of gamut B (a boundary point, `t = 0` on
the red-green edge) is returned unchanged. -/
theorem C9_boundary_points_fixed_witness :
    (gamutB : Gamut ℚ).closestPointOnTriangle (gamutB : Gamut ℚ).red.x
      (gamutB : Gamut ℚ).red.y = (gamutB : Gamut ℚ).red :=
  C9_boundary_points_fixed (gamutB : Gamut ℚ) (gamutB : Gamut ℚ).red
    (by norm_num [gamutB, point.mk.injEq])
    (by norm_num [gamutB, point.mk.injEq])
    (by norm_num [gamutB, point.mk.injEq])
    (Or.inl ⟨0, le_refl 0, zero_le_one, by norm_num [gamutB, point.mk.injEq]⟩)

/-! ## Evaluation lemmas for the real pipeline -/

lemma gammaDecode_zero : gammaDecode 0 = 0 := by
  unfold gammaDecode
  rw [if_neg (by norm_num)]
  norm_num

lemma gammaDecode_one : gammaDecode 1 = 1 := by
  unfold gammaDecode
  rw [if_pos (by norm_num)]
  norm_num

/-- Evaluation of `ToXyY` on the unclamped path (nonzero denominator and
chromaticity already in reach). -/
lemma ToXyY_eval_reach (g : Gamut ℝ) (r gc b : ℤ) (rf gf bf : ℝ)
    (hr : gammaDecode ((r : ℝ) / 255.0) = rf)
    (hg : gammaDecode ((gc : ℝ) / 255.0) = gf)
    (hb : gammaDecode ((b : ℝ) / 255.0) = bf)
    (hs : rf * 0.664511 + gf * 0.154324 + bf * 0.162028 + (rf * 0.283881 + gf * 0.668433 + bf * 0.047685) + (rf * 0.000088 + gf * 0.072310 + bf * 0.986039) ≠ 0)
    (hreach : g.inLampsReach ((rf * 0.664511 + gf * 0.154324 + bf * 0.162028) / (rf * 0.664511 + gf * 0.154324 + bf * 0.162028 + (rf * 0.283881 + gf * 0.668433 + bf * 0.047685) + (rf * 0.000088 + gf * 0.072310 + bf * 0.986039))) ((rf * 0.283881 + gf * 0.668433 + bf * 0.047685) / (rf * 0.664511 + gf * 0.154324 + bf * 0.162028 + (rf * 0.283881 + gf * 0.668433 + bf * 0.047685) + (rf * 0.000088 + gf * 0.072310 + bf * 0.986039))) = true) :
    g.ToXyY r gc b = ((rf * 0.664511 + gf * 0.154324 + bf * 0.162028) / (rf * 0.664511 + gf * 0.154324 + bf * 0.162028 + (rf * 0.283881 + gf * 0.668433 + bf * 0.047685) + (rf * 0.000088 + gf * 0.072310 + bf * 0.986039)), (rf * 0.283881 + gf * 0.668433 + bf * 0.047685) / (rf * 0.664511 + gf * 0.154324 + bf * 0.162028 + (rf * 0.283881 + gf * 0.668433 + bf * 0.047685) + (rf * 0.000088 + gf * 0.072310 + bf * 0.986039)), rf * 0.283881 + gf * 0.668433 + bf * 0.047685) := by
  simp only [Gamut.ToXyY]
  rw [hr, hg, hb]
  have hx : ¬((rf * 0.664511 + gf * 0.154324 + bf * 0.162028) = 0 ∧ (rf * 0.664511 + gf * 0.154324 + bf * 0.162028 + (rf * 0.283881 + gf * 0.668433 + bf * 0.047685) + (rf * 0.000088 + gf * 0.072310 + bf * 0.986039)) = 0) := fun hc => hs hc.2
  have hy : ¬((rf * 0.283881 + gf * 0.668433 + bf * 0.047685) = 0 ∧ (rf * 0.664511 + gf * 0.154324 + bf * 0.162028 + (rf * 0.283881 + gf * 0.668433 + bf * 0.047685) + (rf * 0.000088 + gf * 0.072310 + bf * 0.986039)) = 0) := fun hc => hs hc.2
  rw [if_neg hx, if_neg hy, if_pos hreach]

/-! ## C5: the black input -/

/-- On input (0,0,0) all channels take the linear branch of the gamma
correction, `X = Y = Z = 0`, both NaN guards fire (giving the pre-clamp
chromaticity (0,0)), and the function then applies the ordinary
containment-or-clamp step to (0, 0). -/
lemma ToXyY_black (g : Gamut ℝ) :
    g.ToXyY 0 0 0 =
      (if g.inLampsReach 0 0 = true then ((0:ℝ), (0:ℝ), (0:ℝ))
       else ((g.closestPointOnTriangle 0 0).x, (g.closestPointOnTriangle 0 0).y, 0)) := by
  simp only [Gamut.ToXyY]
  rw [show ((0:ℤ) : ℝ)/255.0 = 0 by norm_num, gammaDecode_zero]
  norm_num

lemma inLampsReach_D_origin : (gamutD : Gamut ℝ).inLampsReach 0 0 = true := by
  rw [inLampsReach_iff]
  norm_num [crossProduct, gamutD]

lemma inLampsReach_B_origin : (gamutB : Gamut ℝ).inLampsReach 0 0 = false := by
  rw [inLampsReach_eq_false_iff, inLampsReach_iff]
  norm_num [crossProduct, gamutB]

lemma closestPointOnTriangle_B_origin :
    (gamutB : Gamut ℝ).closestPointOnTriangle 0 0 = ⟨0.167, 0.04⟩ := by
  norm_num [Gamut.closestPointOnTriangle, closestPointOnLine, dist2, gamutB, point.mk.injEq]

/-- C5 (amended): on the black input the NaN guards substitute the
pre-clamp chromaticity x = y = 0, and the *returned* chromaticity is the
gamut-clamp of (0, 0): it equals (0, 0) exactly when the gamut contains
(0, 0) — true for the default gamut D — while a gamut not containing the
origin (such as gamut B) returns the nearest triangle point instead, here
its blue vertex (0.167, 0.04).  NaN is never produced. -/
theorem C5_black_guard_then_clamp :
    (∀ g : Gamut ℝ, g.ToXyY 0 0 0 =
      (if g.inLampsReach 0 0 = true then ((0:ℝ), (0:ℝ), (0:ℝ))
       else ((g.closestPointOnTriangle 0 0).x, (g.closestPointOnTriangle 0 0).y, 0))) ∧
    (gamutD : Gamut ℝ).ToXyY 0 0 0 = (0, 0, 0) ∧
    (gamutB : Gamut ℝ).ToXyY 0 0 0 = (0.167, 0.04, 0) := by
  refine ⟨ToXyY_black, ?_, ?_⟩
  · rw [ToXyY_black, if_pos inLampsReach_D_origin]
  · rw [ToXyY_black, if_neg (by simp [inLampsReach_B_origin]), closestPointOnTriangle_B_origin]

/-- C5 counterexample: for gamut B (which does not contain the origin) the
returned x-coordinate on the black input is 0.167, not 0, refuting the
claim's "for every gamut ... returns x = 0 and y = 0". -/
theorem C5_counterexample_gamutB_black :
    ((gamutB : Gamut ℝ).ToXyY 0 0 0).1 = 0.167 ∧ (0.167 : ℝ) ≠ 0 := by
  constructor
  · rw [ToXyY_black, if_neg (by simp [inLampsReach_B_origin]), closestPointOnTriangle_B_origin]
  · norm_num

/-! ## C4: ToRGB at y = 0 -/

/-- When the input chromaticity passes the containment test and has `y = 0`,
`ToRGB`'s unguarded division `(Y/y)*x` is a float division by zero; the
embedded result is the undefined marker `none`. -/
lemma ToRGB_none_of_reach_y_zero (g : Gamut ℝ) (x y bri : ℝ)
    (hreach : g.inLampsReach x y = true) (hy : y = 0) :
    g.ToRGB x y bri = none := by
  simp only [Gamut.ToRGB]
  rw [if_pos hreach]
  rw [if_pos (by simpa using hy)]

lemma inLampsReach_D_half_zero : (gamutD : Gamut ℝ).inLampsReach 0.5 0 = true := by
  rw [inLampsReach_iff]
  norm_num [crossProduct, gamutD]

/-- C4 (amended): `ToRGB` has no special case for `y = 0`.  The point
(0.5, 0) lies inside the default gamut D (its blue-red edge is the segment
`y = 0`, `x ∈ [0,1]`), so the clamp leaves it untouched, and the conversion
then divides by `y = 0`: the result is undefined (NaN/Inf contaminated,
embedded as `none`) for every brightness — neither black nor an error value
is produced. -/
theorem C4_no_y_zero_guard :
    (∀ bri : ℝ, (gamutD : Gamut ℝ).ToRGB 0.5 0 bri = none) ∧
    (gamutD : Gamut ℝ).inLampsReach 0.5 0 = true :=
  ⟨fun bri => ToRGB_none_of_reach_y_zero _ _ _ bri inLampsReach_D_half_zero rfl,
   inLampsReach_D_half_zero⟩

/-- C4 counterexample: at the in-gamut input (0.5, 0) with brightness 1 the
result of `ToRGB` is the undefined marker, not the black triple (0,0,0)
(nor any other defined sentinel): the code divides by zero instead of
special-casing `y = 0`. -/
theorem C4_counterexample_y_zero_not_black :
    (gamutD : Gamut ℝ).ToRGB 0.5 0 1 = none ∧
    (none : Option (ℤ × ℤ × ℤ)) ≠ some (0, 0, 0) :=
  ⟨ToRGB_none_of_reach_y_zero _ _ _ 1 inLampsReach_D_half_zero rfl, by simp⟩

/-! ## C1: pure red on gamut B -/

/-- Evaluation of `ToXyY` on the clamped path (nonzero denominator,
chromaticity out of reach). -/
lemma ToXyY_eval_clamp (g : Gamut ℝ) (r gc b : ℤ) (rf gf bf : ℝ)
    (hr : gammaDecode ((r : ℝ) / 255.0) = rf)
    (hg : gammaDecode ((gc : ℝ) / 255.0) = gf)
    (hb : gammaDecode ((b : ℝ) / 255.0) = bf)
    (hs : rf * 0.664511 + gf * 0.154324 + bf * 0.162028 + (rf * 0.283881 + gf * 0.668433 + bf * 0.047685) + (rf * 0.000088 + gf * 0.072310 + bf * 0.986039) ≠ 0)
    (hreach : g.inLampsReach ((rf * 0.664511 + gf * 0.154324 + bf * 0.162028) / (rf * 0.664511 + gf * 0.154324 + bf * 0.162028 + (rf * 0.283881 + gf * 0.668433 + bf * 0.047685) + (rf * 0.000088 + gf * 0.072310 + bf * 0.986039))) ((rf * 0.283881 + gf * 0.668433 + bf * 0.047685) / (rf * 0.664511 + gf * 0.154324 + bf * 0.162028 + (rf * 0.283881 + gf * 0.668433 + bf * 0.047685) + (rf * 0.000088 + gf * 0.072310 + bf * 0.986039))) = false) :
    g.ToXyY r gc b =
      ((g.closestPointOnTriangle ((rf * 0.664511 + gf * 0.154324 + bf * 0.162028) / (rf * 0.664511 + gf * 0.154324 + bf * 0.162028 + (rf * 0.283881 + gf * 0.668433 + bf * 0.047685) + (rf * 0.000088 + gf * 0.072310 + bf * 0.986039))) ((rf * 0.283881 + gf * 0.668433 + bf * 0.047685) / (rf * 0.664511 + gf * 0.154324 + bf * 0.162028 + (rf * 0.283881 + gf * 0.668433 + bf * 0.047685) + (rf * 0.000088 + gf * 0.072310 + bf * 0.986039)))).x,
       (g.closestPointOnTriangle ((rf * 0.664511 + gf * 0.154324 + bf * 0.162028) / (rf * 0.664511 + gf * 0.154324 + bf * 0.162028 + (rf * 0.283881 + gf * 0.668433 + bf * 0.047685) + (rf * 0.000088 + gf * 0.072310 + bf * 0.986039))) ((rf * 0.283881 + gf * 0.668433 + bf * 0.047685) / (rf * 0.664511 + gf * 0.154324 + bf * 0.162028 + (rf * 0.283881 + gf * 0.668433 + bf * 0.047685) + (rf * 0.000088 + gf * 0.072310 + bf * 0.986039)))).y,
       rf * 0.283881 + gf * 0.668433 + bf * 0.047685) := by
  simp only [Gamut.ToXyY]
  rw [hr, hg, hb]
  have hx : ¬((rf * 0.664511 + gf * 0.154324 + bf * 0.162028) = 0 ∧ (rf * 0.664511 + gf * 0.154324 + bf * 0.162028 + (rf * 0.283881 + gf * 0.668433 + bf * 0.047685) + (rf * 0.000088 + gf * 0.072310 + bf * 0.986039)) = 0) := fun hc => hs hc.2
  have hy : ¬((rf * 0.283881 + gf * 0.668433 + bf * 0.047685) = 0 ∧ (rf * 0.664511 + gf * 0.154324 + bf * 0.162028 + (rf * 0.283881 + gf * 0.668433 + bf * 0.047685) + (rf * 0.000088 + gf * 0.072310 + bf * 0.986039)) = 0) := fun hc => hs hc.2
  rw [if_neg hx, if_neg hy, if_neg (by simp [hreach])]

/-- The raw (pre-clamp) chromaticity of pure red, `(0.664511/0.94848,
0.283881/0.94848) ≈ (0.7006, 0.2993)`, lies outside gamut B; the clamp
projects it onto the triangle, landing exactly on the red vertex. -/
lemma toXyY_B_red : (gamutB : Gamut ℝ).ToXyY 255 0 0 = (0.675, 0.322, 0.283881) := by
  rw [ToXyY_eval_clamp (gamutB : Gamut ℝ) 255 0 0 1 0 0
      (by rw [show ((255:ℤ):ℝ)/255.0 = 1 by norm_num]; exact gammaDecode_one)
      (by rw [show ((0:ℤ):ℝ)/255.0 = 0 by norm_num]; exact gammaDecode_zero)
      (by rw [show ((0:ℤ):ℝ)/255.0 = 0 by norm_num]; exact gammaDecode_zero)
      (by norm_num)
      (by rw [inLampsReach_eq_false_iff, inLampsReach_iff]
          norm_num [crossProduct, gamutB])]
  norm_num [Gamut.closestPointOnTriangle, closestPointOnLine, dist2, gamutB,
    point.mk.injEq, Prod.mk.injEq]

lemma GetGamut_LCT001 : (GetGamut "LCT001" : Gamut ℝ) = gamutB := by
  unfold GetGamut
  rw [if_neg (by decide), if_pos (by decide)]

/-- The wire brightness stored by `SetColorRGB` for pure red on an original
Hue bulb (model LCT001, gamut B): `⌈0.283881·255 − 0.5⌉ = ⌈71.8896…⌉ = 72`. -/
lemma SetColorRGB_LCT001_red_bri : (Light.SetColorRGB "LCT001" 255 0 0).2.2 = 72 := by
  simp only [Light.SetColorRGB]
  rw [GetGamut_LCT001, toXyY_B_red]
  norm_num [Int.ceil_eq_iff]

/-- C1 (amended): for gamut B the conversion of pure red (255,0,0) returns
chromaticity exactly equal to the gamut's red vertex (0.675, 0.322) — hence
within 1e-3 of it — but it does so because the raw chromaticity
(0.664511/0.94848, 0.283881/0.94848) is *outside* the gamut and is clamped
onto the red vertex (the claim's "already contained, hence unclamped" is
false), and the derived wire brightness is
`⌈0.283881·255 − 0.5⌉ = 72`, not 255. -/
theorem C1_pure_red_clamped_to_vertex_brightness_72 :
    (gamutB : Gamut ℝ).ToXyY 255 0 0 = (0.675, 0.322, 0.283881) ∧
    (gamutB : Gamut ℝ).inLampsReach (0.664511 / 0.94848) (0.283881 / 0.94848) = false ∧
    (Light.SetColorRGB "LCT001" 255 0 0).2.2 = 72 := by
  refine ⟨toXyY_B_red, ?_, SetColorRGB_LCT001_red_bri⟩
  rw [inLampsReach_eq_false_iff, inLampsReach_iff]
  norm_num [crossProduct, gamutB]

/-- C1 counterexample: the wire brightness derived from
`ToXyY(gamutB, 255, 0, 0)` is 72, not 255, and the raw chromaticity of pure
red is not contained in gamut B (so the conversion clamps, contrary to the
claim's parenthetical). -/
theorem C1_counterexample_brightness_not_255 :
    (Light.SetColorRGB "LCT001" 255 0 0).2.2 ≠ 255 ∧
    (gamutB : Gamut ℝ).inLampsReach (0.664511 / 0.94848) (0.283881 / 0.94848) = false := by
  constructor
  · rw [SetColorRGB_LCT001_red_bri]
    norm_num
  · rw [inLampsReach_eq_false_iff, inLampsReach_iff]
    norm_num [crossProduct, gamutB]

/-! ## C6: wire brightness -/

/-- The gamma-decoded value of a channel in [0,1] stays in [0,1]. -/
lemma gammaDecode_mem (c : ℝ) (h0 : 0 ≤ c) (h1 : c ≤ 1) :
    0 ≤ gammaDecode c ∧ gammaDecode c ≤ 1 := by
  unfold gammaDecode
  split_ifs with h
  · constructor
    · exact Real.rpow_nonneg (div_nonneg (by linarith) (by norm_num)) _
    · exact Real.rpow_le_one (div_nonneg (by linarith) (by norm_num))
        (by rw [div_le_one (by norm_num)]; linarith) (by norm_num)
  · constructor
    · positivity
    · rw [div_le_one (by norm_num)]
      linarith

/-- The luminance `Y` of any RGB triple with channels in 0..255 lies in
`[0, 0.999999]` (the luminance matrix row sums to 0.999999). -/
lemma ToXyY_lum_mem (g : Gamut ℝ) (r gc b : ℤ)
    (hr0 : 0 ≤ r) (hr1 : r ≤ 255) (hg0 : 0 ≤ gc) (hg1 : gc ≤ 255)
    (hb0 : 0 ≤ b) (hb1 : b ≤ 255) :
    0 ≤ (g.ToXyY r gc b).2.2 ∧ (g.ToXyY r gc b).2.2 ≤ 0.999999 := by
  have hrc : (0:ℝ) ≤ (r : ℝ) / 255.0 ∧ (r : ℝ) / 255.0 ≤ 1 := by
    constructor
    · apply div_nonneg _ (by norm_num)
      exact_mod_cast hr0
    · rw [div_le_one (by norm_num)]
      norm_num
      exact_mod_cast hr1
  have hgc : (0:ℝ) ≤ (gc : ℝ) / 255.0 ∧ (gc : ℝ) / 255.0 ≤ 1 := by
    constructor
    · apply div_nonneg _ (by norm_num)
      exact_mod_cast hg0
    · rw [div_le_one (by norm_num)]
      norm_num
      exact_mod_cast hg1
  have hbc : (0:ℝ) ≤ (b : ℝ) / 255.0 ∧ (b : ℝ) / 255.0 ≤ 1 := by
    constructor
    · apply div_nonneg _ (by norm_num)
      exact_mod_cast hb0
    · rw [div_le_one (by norm_num)]
      norm_num
      exact_mod_cast hb1
  have h1 := gammaDecode_mem _ hrc.1 hrc.2
  have h2 := gammaDecode_mem _ hgc.1 hgc.2
  have h3 := gammaDecode_mem _ hbc.1 hbc.2
  rw [ToXyY_lum]
  constructor
  · nlinarith [h1.1, h2.1, h3.1]
  · nlinarith [h1.1, h1.2, h2.1, h2.2, h3.1, h3.2]

/-- C6: for any model and any RGB input with channels in 0..255, the stored
wire brightness equals `⌈Y·255 − 0.5⌉` (the round-half-down convention of
`int(math.Ceil(Y*255.0 - 0.5))`), and it always lies in the encodable range
0..255 — no value ever needs clamping because `0 ≤ Y ≤ 0.999999`. -/
theorem C6_brightness_formula_and_range (model : String) (r g b : ℤ)
    (hr0 : 0 ≤ r) (hr1 : r ≤ 255) (hg0 : 0 ≤ g) (hg1 : g ≤ 255)
    (hb0 : 0 ≤ b) (hb1 : b ≤ 255) :
    (Light.SetColorRGB model r g b).2.2 =
      ⌈((GetGamut model : Gamut ℝ).ToXyY r g b).2.2 * 255.0 - 0.5⌉ ∧
    0 ≤ (Light.SetColorRGB model r g b).2.2 ∧
    (Light.SetColorRGB model r g b).2.2 ≤ 255 := by
  have hY := ToXyY_lum_mem (GetGamut model) r g b hr0 hr1 hg0 hg1 hb0 hb1
  refine ⟨rfl, ?_, ?_⟩
  · show (0:ℤ) ≤ ⌈((GetGamut model : Gamut ℝ).ToXyY r g b).2.2 * 255.0 - 0.5⌉
    have hlt : ((-1:ℤ) : ℝ) < ((GetGamut model : Gamut ℝ).ToXyY r g b).2.2 * 255.0 - 0.5 := by
      push_cast
      nlinarith [hY.1]
    have := Int.lt_ceil.mpr hlt
    omega
  · show ⌈((GetGamut model : Gamut ℝ).ToXyY r g b).2.2 * 255.0 - 0.5⌉ ≤ (255:ℤ)
    apply Int.ceil_le.mpr
    push_cast
    nlinarith [hY.2]

/-- Witness for C6: the black input on an original Hue bulb model. -/
theorem C6_brightness_formula_and_range_witness :
    0 ≤ (Light.SetColorRGB "LCT001" 0 0 0).2.2 ∧
    (Light.SetColorRGB "LCT001" 0 0 0).2.2 ≤ 255 :=
  (C6_brightness_formula_and_range "LCT001" 0 0 0 (by decide) (by decide)
    (by decide) (by decide) (by decide) (by decide)).2

/-! ## C2: round-trip machinery -/

lemma gammaEncode_lin (c : ℝ) (h : c ≤ 0.0031308) : gammaEncode c = c * 12.92 := by
  unfold gammaEncode
  rw [if_pos h]

lemma gammaEncode_pow (c : ℝ) (h : ¬ c ≤ 0.0031308) :
    gammaEncode c = (1.0 + 0.055) * c ^ ((1.0 : ℝ) / 2.4) - 0.055 := by
  unfold gammaEncode
  rw [if_neg h]

/-- Rational lower bounds for `rpow` with exponent 5/12 reduce to integer
power inequalities. -/
lemma le_rpow512 {x a : ℝ} (hx : 0 ≤ x) (_ha : 0 ≤ a) (h : a ^ (12:ℕ) ≤ x ^ (5:ℕ)) :
    a ≤ x ^ ((1.0:ℝ)/2.4) := by
  rw [show ((1.0:ℝ)/2.4) = (5:ℝ)/12 by norm_num]
  have hxe : (0:ℝ) ≤ x ^ ((5:ℝ)/12) := Real.rpow_nonneg hx _
  have key : (x ^ ((5:ℝ)/12)) ^ (12:ℕ) = x ^ (5:ℕ) := by
    rw [← Real.rpow_natCast (x ^ ((5:ℝ)/12)) 12, ← Real.rpow_mul hx]
    rw [show ((5:ℝ)/12) * (12:ℕ) = ((5:ℕ):ℝ) by norm_num, Real.rpow_natCast]
  refine le_of_pow_le_pow_left₀ (n := 12) (by norm_num) hxe ?_
  rw [key]
  exact h

lemma rpow512_le {x a : ℝ} (hx : 0 ≤ x) (ha : 0 ≤ a) (h : x ^ (5:ℕ) ≤ a ^ (12:ℕ)) :
    x ^ ((1.0:ℝ)/2.4) ≤ a := by
  rw [show ((1.0:ℝ)/2.4) = (5:ℝ)/12 by norm_num]
  have key : (x ^ ((5:ℝ)/12)) ^ (12:ℕ) = x ^ (5:ℕ) := by
    rw [← Real.rpow_natCast (x ^ ((5:ℝ)/12)) 12, ← Real.rpow_mul hx]
    rw [show ((5:ℝ)/12) * (12:ℕ) = ((5:ℕ):ℝ) by norm_num, Real.rpow_natCast]
  refine le_of_pow_le_pow_left₀ (n := 12) (by norm_num) ha ?_
  rw [key]
  exact h

/-- Rational bounds for `rpow` with exponent 12/5 (the decode exponent 2.4)
likewise reduce to integer power inequalities. -/
lemma le_rpow125 {x a : ℝ} (hx : 0 ≤ x) (_ha : 0 ≤ a) (h : a ^ (5:ℕ) ≤ x ^ (12:ℕ)) :
    a ≤ x ^ ((2.4:ℝ)) := by
  rw [show ((2.4:ℝ)) = (12:ℝ)/5 by norm_num]
  have hxe : (0:ℝ) ≤ x ^ ((12:ℝ)/5) := Real.rpow_nonneg hx _
  have key : (x ^ ((12:ℝ)/5)) ^ (5:ℕ) = x ^ (12:ℕ) := by
    rw [← Real.rpow_natCast (x ^ ((12:ℝ)/5)) 5, ← Real.rpow_mul hx]
    rw [show ((12:ℝ)/5) * (5:ℕ) = ((12:ℕ):ℝ) by norm_num, Real.rpow_natCast]
  refine le_of_pow_le_pow_left₀ (n := 5) (by norm_num) hxe ?_
  rw [key]
  exact h

lemma rpow125_le {x a : ℝ} (hx : 0 ≤ x) (ha : 0 ≤ a) (h : x ^ (12:ℕ) ≤ a ^ (5:ℕ)) :
    x ^ ((2.4:ℝ)) ≤ a := by
  rw [show ((2.4:ℝ)) = (12:ℝ)/5 by norm_num]
  have key : (x ^ ((12:ℝ)/5)) ^ (5:ℕ) = x ^ (12:ℕ) := by
    rw [← Real.rpow_natCast (x ^ ((12:ℝ)/5)) 5, ← Real.rpow_mul hx]
    rw [show ((12:ℝ)/5) * (5:ℕ) = ((12:ℕ):ℝ) by norm_num, Real.rpow_natCast]
  refine le_of_pow_le_pow_left₀ (n := 5) (by norm_num) ha ?_
  rw [key]
  exact h

/-- Evaluation of `ToRGB` on the defined path with no renormalisation:
chromaticity in reach, `y ≠ 0`, all gamma-encoded channels at most 1. -/
lemma ToRGB_eval_reach (g : Gamut ℝ) (x y bri rl gl bl : ℝ)
    (hreach : g.inLampsReach x y = true) (hy : ¬ (y = 0))
    (hrl : (bri / y) * x * 1.656492 - bri * 0.354851 - (bri / y) * (1.0 - x - y) * 0.255038 = rl)
    (hgl : -((bri / y) * x) * 0.707196 + bri * 1.655397 + (bri / y) * (1.0 - x - y) * 0.036152 = gl)
    (hbl : (bri / y) * x * 0.051713 - bri * 0.121364 + (bri / y) * (1.0 - x - y) * 1.011530 = bl)
    (hm : ¬ (max (max (gammaEncode rl) (gammaEncode gl)) (gammaEncode bl) > 1)) :
    g.ToRGB x y bri =
      some (⌈gammaEncode rl * 255.0 - 0.5⌉, ⌈gammaEncode gl * 255.0 - 0.5⌉,
            ⌈gammaEncode bl * 255.0 - 0.5⌉) := by
  simp only [Gamut.ToRGB]
  rw [if_pos hreach]
  dsimp only
  rw [if_neg hy, hrl, hgl, hbl, if_neg hm]

/-- Evaluation of `ToRGB` on the defined path with renormalisation by the
blue channel: the blue gamma-encoded value exceeds 1 and dominates. -/
lemma ToRGB_eval_reach_renorm (g : Gamut ℝ) (x y bri rl gl bl : ℝ)
    (hreach : g.inLampsReach x y = true) (hy : ¬ (y = 0))
    (hrl : (bri / y) * x * 1.656492 - bri * 0.354851 - (bri / y) * (1.0 - x - y) * 0.255038 = rl)
    (hgl : -((bri / y) * x) * 0.707196 + bri * 1.655397 + (bri / y) * (1.0 - x - y) * 0.036152 = gl)
    (hbl : (bri / y) * x * 0.051713 - bri * 0.121364 + (bri / y) * (1.0 - x - y) * 1.011530 = bl)
    (hrb : gammaEncode rl ≤ gammaEncode bl)
    (hgb : gammaEncode gl ≤ gammaEncode bl)
    (hm : gammaEncode bl > 1) :
    g.ToRGB x y bri =
      some (⌈gammaEncode rl / gammaEncode bl * 255.0 - 0.5⌉,
            ⌈gammaEncode gl / gammaEncode bl * 255.0 - 0.5⌉,
            ⌈gammaEncode bl / gammaEncode bl * 255.0 - 0.5⌉) := by
  simp only [Gamut.ToRGB]
  rw [if_pos hreach]
  dsimp only
  rw [if_neg hy, hrl, hgl, hbl]
  have hmax : max (max (gammaEncode rl) (gammaEncode gl)) (gammaEncode bl) = gammaEncode bl :=
    max_eq_right (max_le hrb hgb)
  rw [hmax, if_pos hm]

/-- A channel whose linear value is tiny (within 1e-4 of zero) encodes and
rounds to the integer 0. -/
lemma gammaEncode_tiny (c : ℝ) (h0 : -0.0001 ≤ c) (h1 : c ≤ 0.0001) :
    ⌈gammaEncode c * 255.0 - 0.5⌉ = 0 ∧ gammaEncode c ≤ 1 := by
  rw [gammaEncode_lin c (by linarith)]
  constructor
  · rw [Int.ceil_eq_iff]
    constructor
    · push_cast
      nlinarith
    · push_cast
      nlinarith
  · nlinarith

/-- A channel whose linear value lies in [0.999997, 1] encodes and rounds to
the integer 255, and its encoded value is at most 1. -/
lemma gammaEncode_near1 (c : ℝ) (h0 : 0.999997 ≤ c) (h1 : c ≤ 1) :
    ⌈gammaEncode c * 255.0 - 0.5⌉ = 255 ∧ gammaEncode c ≤ 1 := by
  rw [gammaEncode_pow c (by norm_num; linarith)]
  have hlow : (0.9999985 : ℝ) ≤ c ^ ((1.0:ℝ)/2.4) := by
    apply le_rpow512 (by linarith) (by norm_num)
    calc (0.9999985:ℝ) ^ (12:ℕ) ≤ (0.999997:ℝ) ^ (5:ℕ) := by norm_num
    _ ≤ c ^ (5:ℕ) := pow_le_pow_left₀ (by norm_num) h0 5
  have hhigh : c ^ ((1.0:ℝ)/2.4) ≤ 1 := by
    rw [show ((1.0:ℝ)/2.4) = (5:ℝ)/12 by norm_num]
    exact Real.rpow_le_one (by linarith) h1 (by norm_num)
  constructor
  · rw [Int.ceil_eq_iff]
    constructor
    · push_cast
      nlinarith
    · push_cast
      nlinarith
  · nlinarith

/-- Bounds on the encoded value for linear values within 3e-7 of 1 (used for
the renormalisation analysis of white). -/
lemma gammaEncode_near1_bounds (c : ℝ) (h0 : 0.999997 ≤ c) (h1 : c ≤ 1.0000003) :
    0.9999 ≤ gammaEncode c ∧ gammaEncode c ≤ 1.0000004 := by
  rw [gammaEncode_pow c (by norm_num; linarith)]
  have hlow : (0.9999985 : ℝ) ≤ c ^ ((1.0:ℝ)/2.4) := by
    apply le_rpow512 (by linarith) (by norm_num)
    calc (0.9999985:ℝ) ^ (12:ℕ) ≤ (0.999997:ℝ) ^ (5:ℕ) := by norm_num
    _ ≤ c ^ (5:ℕ) := pow_le_pow_left₀ (by norm_num) h0 5
  have hhigh : c ^ ((1.0:ℝ)/2.4) ≤ 1.0000002 := by
    apply rpow512_le (by linarith) (by norm_num)
    calc c ^ (5:ℕ) ≤ (1.0000003:ℝ) ^ (5:ℕ) := pow_le_pow_left₀ (by linarith) h1 5
    _ ≤ (1.0000002:ℝ) ^ (12:ℕ) := by norm_num
  constructor
  · nlinarith
  · nlinarith

/-- The encoded value of a linear value exceeding 1 exceeds 1. -/
lemma one_lt_gammaEncode (c : ℝ) (h : 1 < c) : 1 < gammaEncode c := by
  rw [gammaEncode_pow c (by norm_num; linarith)]
  have : 1 < c ^ ((1.0:ℝ)/2.4) :=
    (Real.one_lt_rpow_iff_of_pos (by linarith)).mpr (Or.inl ⟨h, by norm_num⟩)
  nlinarith

/-- Monotonicity of the encode on the power branch. -/
lemma gammaEncode_mono_near1 (u v : ℝ) (h0 : 0.0032 ≤ u) (huv : u ≤ v) :
    gammaEncode u ≤ gammaEncode v := by
  rw [gammaEncode_pow u (by norm_num; linarith), gammaEncode_pow v (by norm_num; linarith)]
  have := Real.rpow_le_rpow (by linarith : (0:ℝ) ≤ u) huv (by norm_num : (0:ℝ) ≤ (1.0:ℝ)/2.4)
  nlinarith

/-- A near-1 channel divided by a just-above-1 maximum still rounds to 255. -/
lemma ceil_ratio_255 (u v : ℝ) (hu1 : 0.9999 ≤ u) (hu2 : u ≤ 1) (hv1 : 1 < v)
    (hv2 : v ≤ 1.0000004) :
    ⌈u / v * 255.0 - 0.5⌉ = 255 := by
  have hv : (0:ℝ) < v := by linarith
  have hr1 : (0.9998:ℝ) ≤ u / v := by
    rw [le_div_iff₀ hv]
    nlinarith
  have hr2 : u / v ≤ 1 := by
    rw [div_le_one hv]
    linarith
  rw [Int.ceil_eq_iff]
  constructor
  · push_cast
    nlinarith
  · push_cast
    nlinarith

/-! ### Round trips of the primary colors -/

lemma toXyY_D_red : (gamutD : Gamut ℝ).ToXyY 255 0 0 = (664511/948480, 283881/948480, 0.283881) := by
  rw [ToXyY_eval_reach (gamutD : Gamut ℝ) 255 0 0 1 0 0
      (by rw [show ((255:ℤ):ℝ)/255.0 = 1 by norm_num]; exact gammaDecode_one)
      (by rw [show ((0:ℤ):ℝ)/255.0 = 0 by norm_num]; exact gammaDecode_zero)
      (by rw [show ((0:ℤ):ℝ)/255.0 = 0 by norm_num]; exact gammaDecode_zero)
      (by norm_num)
      (by rw [inLampsReach_iff]; norm_num [crossProduct, gamutD])]
  norm_num [Prod.mk.injEq]

lemma roundTrip_red :
    (gamutD : Gamut ℝ).ToRGB ((gamutD : Gamut ℝ).ToXyY 255 0 0).1
      ((gamutD : Gamut ℝ).ToXyY 255 0 0).2.1 ((gamutD : Gamut ℝ).ToXyY 255 0 0).2.2 =
      some (255, 0, 0) := by
  rw [toXyY_D_red]
  dsimp only
  rw [ToRGB_eval_reach (gamutD : Gamut ℝ) (664511/948480) (283881/948480) (0.283881)
      (0.999999255337) (-0.000000584023) (-0.000000061701)
      (by rw [inLampsReach_iff]; norm_num [crossProduct, gamutD])
      (by norm_num)
      (by norm_num) (by norm_num) (by norm_num)
      (not_lt.mpr (max_le (max_le (gammaEncode_near1 (0.999999255337) (by norm_num) (by norm_num)).2 (gammaEncode_tiny (-0.000000584023) (by norm_num) (by norm_num)).2) (gammaEncode_tiny (-0.000000061701) (by norm_num) (by norm_num)).2))]
  rw [(gammaEncode_near1 (0.999999255337) (by norm_num) (by norm_num)).1, (gammaEncode_tiny (-0.000000584023) (by norm_num) (by norm_num)).1, (gammaEncode_tiny (-0.000000061701) (by norm_num) (by norm_num)).1]

lemma toXyY_D_green : (gamutD : Gamut ℝ).ToXyY 0 255 0 = (154324/895067, 668433/895067, 0.668433) := by
  rw [ToXyY_eval_reach (gamutD : Gamut ℝ) 0 255 0 0 1 0
      (by rw [show ((0:ℤ):ℝ)/255.0 = 0 by norm_num]; exact gammaDecode_zero)
      (by rw [show ((255:ℤ):ℝ)/255.0 = 1 by norm_num]; exact gammaDecode_one)
      (by rw [show ((0:ℤ):ℝ)/255.0 = 0 by norm_num]; exact gammaDecode_zero)
      (by norm_num)
      (by rw [inLampsReach_iff]; norm_num [crossProduct, gamutD])]
  norm_num [Prod.mk.injEq]

lemma roundTrip_green :
    (gamutD : Gamut ℝ).ToRGB ((gamutD : Gamut ℝ).ToXyY 0 255 0).1
      ((gamutD : Gamut ℝ).ToXyY 0 255 0).2.1 ((gamutD : Gamut ℝ).ToXyY 0 255 0).2.2 =
      some (0, 255, 0) := by
  rw [toXyY_D_green]
  dsimp only
  rw [ToRGB_eval_reach (gamutD : Gamut ℝ) (154324/895067) (668433/895067) (0.668433)
      (0.000000555145) (0.999998818517) (0.000000588700)
      (by rw [inLampsReach_iff]; norm_num [crossProduct, gamutD])
      (by norm_num)
      (by norm_num) (by norm_num) (by norm_num)
      (not_lt.mpr (max_le (max_le (gammaEncode_tiny (0.000000555145) (by norm_num) (by norm_num)).2 (gammaEncode_near1 (0.999998818517) (by norm_num) (by norm_num)).2) (gammaEncode_tiny (0.000000588700) (by norm_num) (by norm_num)).2))]
  rw [(gammaEncode_tiny (0.000000555145) (by norm_num) (by norm_num)).1, (gammaEncode_near1 (0.999998818517) (by norm_num) (by norm_num)).1, (gammaEncode_tiny (0.000000588700) (by norm_num) (by norm_num)).1]

lemma toXyY_D_blue : (gamutD : Gamut ℝ).ToXyY 0 0 255 = (162028/1195752, 47685/1195752, 0.047685) := by
  rw [ToXyY_eval_reach (gamutD : Gamut ℝ) 0 0 255 0 0 1
      (by rw [show ((0:ℤ):ℝ)/255.0 = 0 by norm_num]; exact gammaDecode_zero)
      (by rw [show ((0:ℤ):ℝ)/255.0 = 0 by norm_num]; exact gammaDecode_zero)
      (by rw [show ((255:ℤ):ℝ)/255.0 = 1 by norm_num]; exact gammaDecode_one)
      (by norm_num)
      (by rw [inLampsReach_iff]; norm_num [crossProduct, gamutD])]
  norm_num [Prod.mk.injEq]

lemma roundTrip_blue :
    (gamutD : Gamut ℝ).ToRGB ((gamutD : Gamut ℝ).ToXyY 0 0 255).1
      ((gamutD : Gamut ℝ).ToXyY 0 0 255).2.1 ((gamutD : Gamut ℝ).ToXyY 0 0 255).2.2 =
      some (0, 0, 255) := by
  rw [toXyY_D_blue]
  dsimp only
  rw [ToRGB_eval_reach (gamutD : Gamut ℝ) (162028/1195752) (47685/1195752) (0.047685)
      (-0.000000398641) (-0.000000665615) (0.999999741294)
      (by rw [inLampsReach_iff]; norm_num [crossProduct, gamutD])
      (by norm_num)
      (by norm_num) (by norm_num) (by norm_num)
      (not_lt.mpr (max_le (max_le (gammaEncode_tiny (-0.000000398641) (by norm_num) (by norm_num)).2 (gammaEncode_tiny (-0.000000665615) (by norm_num) (by norm_num)).2) (gammaEncode_near1 (0.999999741294) (by norm_num) (by norm_num)).2))]
  rw [(gammaEncode_tiny (-0.000000398641) (by norm_num) (by norm_num)).1, (gammaEncode_tiny (-0.000000665615) (by norm_num) (by norm_num)).1, (gammaEncode_near1 (0.999999741294) (by norm_num) (by norm_num)).1]

/-! ### Round trip of white (renormalisation case) -/

lemma toXyY_D_white : (gamutD : Gamut ℝ).ToXyY 255 255 255 =
    (980863/3039299, 999999/3039299, 0.999999) := by
  rw [ToXyY_eval_reach (gamutD : Gamut ℝ) 255 255 255 1 1 1
      (by rw [show ((255:ℤ):ℝ)/255.0 = 1 by norm_num]; exact gammaDecode_one)
      (by rw [show ((255:ℤ):ℝ)/255.0 = 1 by norm_num]; exact gammaDecode_one)
      (by rw [show ((255:ℤ):ℝ)/255.0 = 1 by norm_num]; exact gammaDecode_one)
      (by norm_num)
      (by rw [inLampsReach_iff]; norm_num [crossProduct, gamutD])]
  norm_num [Prod.mk.injEq]

/-- The white round trip renormalises: the blue linear channel reconstructs
to 1.000000268293 > 1, so all three channels are divided by the encoded blue
value before rounding; each still rounds to 255. -/
lemma roundTrip_white :
    (gamutD : Gamut ℝ).ToRGB ((gamutD : Gamut ℝ).ToXyY 255 255 255).1
      ((gamutD : Gamut ℝ).ToXyY 255 255 255).2.1
      ((gamutD : Gamut ℝ).ToXyY 255 255 255).2.2 = some (255, 255, 255) := by
  rw [toXyY_D_white]
  dsimp only
  rw [ToRGB_eval_reach_renorm (gamutD : Gamut ℝ) (980863/3039299) (999999/3039299) 0.999999
      0.999999411841 0.999997568879 1.000000268293
      (by rw [inLampsReach_iff]; norm_num [crossProduct, gamutD])
      (by norm_num)
      (by norm_num) (by norm_num) (by norm_num)
      (gammaEncode_mono_near1 0.999999411841 1.000000268293 (by norm_num) (by norm_num))
      (gammaEncode_mono_near1 0.999997568879 1.000000268293 (by norm_num) (by norm_num))
      (one_lt_gammaEncode 1.000000268293 (by norm_num))]
  have hbl1 := one_lt_gammaEncode 1.000000268293 (by norm_num)
  have hblb := gammaEncode_near1_bounds 1.000000268293 (by norm_num) (by norm_num)
  have hrlb := gammaEncode_near1_bounds 0.999999411841 (by norm_num) (by norm_num)
  have hglb := gammaEncode_near1_bounds 0.999997568879 (by norm_num) (by norm_num)
  rw [ceil_ratio_255 _ _ hrlb.1 (gammaEncode_near1 0.999999411841 (by norm_num) (by norm_num)).2
        hbl1 hblb.2,
      ceil_ratio_255 _ _ hglb.1 (gammaEncode_near1 0.999997568879 (by norm_num) (by norm_num)).2
        hbl1 hblb.2,
      div_self (ne_of_gt (lt_trans zero_lt_one hbl1))]
  norm_num [Int.ceil_eq_iff]

/-! ### Round trip of mid-gray -/

lemma gammaDecode_128 : gammaDecode ((128:ℝ) / 255.0) = (5681/10761 : ℝ) ^ (2.4:ℝ) := by
  unfold gammaDecode
  rw [if_pos (by norm_num)]
  norm_num

lemma g0_lb : (0.2:ℝ) ≤ (5681/10761 : ℝ) ^ (2.4:ℝ) :=
  le_rpow125 (by norm_num) (by norm_num) (by norm_num)

lemma g0_ub : (5681/10761 : ℝ) ^ (2.4:ℝ) ≤ 0.22 :=
  rpow125_le (by norm_num) (by norm_num) (by norm_num)

/-- Channels of the gray round trip: linear value `b₀^2.4 · w` with `w`
within 3e-7 of 1 encodes back (since `(b₀^2.4)^(1/2.4) = b₀`) to a value that
rounds to 128. -/
lemma gammaEncode_gray (w : ℝ) (h0 : 0.999997 ≤ w) (h1 : w ≤ 1.0000003) :
    ⌈gammaEncode ((5681/10761 : ℝ) ^ (2.4:ℝ) * w) * 255.0 - 0.5⌉ = 128 ∧
    gammaEncode ((5681/10761 : ℝ) ^ (2.4:ℝ) * w) ≤ 1 := by
  have hg0 : (0:ℝ) < (5681/10761 : ℝ) ^ (2.4:ℝ) := Real.rpow_pos_of_pos (by norm_num) _
  have hlb := g0_lb
  have hub := g0_ub
  rw [gammaEncode_pow _ (by nlinarith)]
  have hsplit : ((5681/10761 : ℝ) ^ (2.4:ℝ) * w) ^ ((1.0:ℝ)/2.4) =
      (5681/10761 : ℝ) * w ^ ((1.0:ℝ)/2.4) := by
    rw [Real.mul_rpow (le_of_lt hg0) (by linarith)]
    congr 1
    rw [← Real.rpow_mul (by norm_num : (0:ℝ) ≤ (5681/10761:ℝ))]
    rw [show (2.4:ℝ) * ((1.0:ℝ)/2.4) = 1 by norm_num, Real.rpow_one]
  rw [hsplit]
  have hwl : (0.9999985:ℝ) ≤ w ^ ((1.0:ℝ)/2.4) := by
    apply le_rpow512 (by linarith) (by norm_num)
    calc (0.9999985:ℝ) ^ (12:ℕ) ≤ (0.999997:ℝ) ^ (5:ℕ) := by norm_num
    _ ≤ w ^ (5:ℕ) := pow_le_pow_left₀ (by norm_num) h0 5
  have hwu : w ^ ((1.0:ℝ)/2.4) ≤ 1.0000002 := by
    apply rpow512_le (by linarith) (by norm_num)
    calc w ^ (5:ℕ) ≤ (1.0000003:ℝ) ^ (5:ℕ) := pow_le_pow_left₀ (by linarith) h1 5
    _ ≤ (1.0000002:ℝ) ^ (12:ℕ) := by norm_num
  constructor
  · rw [Int.ceil_eq_iff]
    constructor
    · push_cast
      nlinarith
    · push_cast
      nlinarith
  · nlinarith

lemma toXyY_D_gray : (gamutD : Gamut ℝ).ToXyY 128 128 128 =
    (980863/3039299, 999999/3039299, (5681/10761 : ℝ) ^ (2.4:ℝ) * 0.999999) := by
  have hg0 : (0:ℝ) < (5681/10761 : ℝ) ^ (2.4:ℝ) := Real.rpow_pos_of_pos (by norm_num) _
  have hxc : ((5681/10761 : ℝ) ^ (2.4:ℝ) * 0.664511 + (5681/10761 : ℝ) ^ (2.4:ℝ) * 0.154324 +
        (5681/10761 : ℝ) ^ (2.4:ℝ) * 0.162028) /
      ((5681/10761 : ℝ) ^ (2.4:ℝ) * 0.664511 + (5681/10761 : ℝ) ^ (2.4:ℝ) * 0.154324 +
        (5681/10761 : ℝ) ^ (2.4:ℝ) * 0.162028 +
        ((5681/10761 : ℝ) ^ (2.4:ℝ) * 0.283881 + (5681/10761 : ℝ) ^ (2.4:ℝ) * 0.668433 +
          (5681/10761 : ℝ) ^ (2.4:ℝ) * 0.047685) +
        ((5681/10761 : ℝ) ^ (2.4:ℝ) * 0.000088 + (5681/10761 : ℝ) ^ (2.4:ℝ) * 0.072310 +
          (5681/10761 : ℝ) ^ (2.4:ℝ) * 0.986039)) = 980863/3039299 := by
    rw [div_eq_div_iff (by positivity) (by norm_num)]
    ring
  have hyc : ((5681/10761 : ℝ) ^ (2.4:ℝ) * 0.283881 + (5681/10761 : ℝ) ^ (2.4:ℝ) * 0.668433 +
        (5681/10761 : ℝ) ^ (2.4:ℝ) * 0.047685) /
      ((5681/10761 : ℝ) ^ (2.4:ℝ) * 0.664511 + (5681/10761 : ℝ) ^ (2.4:ℝ) * 0.154324 +
        (5681/10761 : ℝ) ^ (2.4:ℝ) * 0.162028 +
        ((5681/10761 : ℝ) ^ (2.4:ℝ) * 0.283881 + (5681/10761 : ℝ) ^ (2.4:ℝ) * 0.668433 +
          (5681/10761 : ℝ) ^ (2.4:ℝ) * 0.047685) +
        ((5681/10761 : ℝ) ^ (2.4:ℝ) * 0.000088 + (5681/10761 : ℝ) ^ (2.4:ℝ) * 0.072310 +
          (5681/10761 : ℝ) ^ (2.4:ℝ) * 0.986039)) = 999999/3039299 := by
    rw [div_eq_div_iff (by positivity) (by norm_num)]
    ring
  rw [ToXyY_eval_reach (gamutD : Gamut ℝ) 128 128 128
      ((5681/10761 : ℝ) ^ (2.4:ℝ)) ((5681/10761 : ℝ) ^ (2.4:ℝ)) ((5681/10761 : ℝ) ^ (2.4:ℝ))
      (by rw [show ((128:ℤ):ℝ)/255.0 = (128:ℝ)/255.0 by norm_num]; exact gammaDecode_128)
      (by rw [show ((128:ℤ):ℝ)/255.0 = (128:ℝ)/255.0 by norm_num]; exact gammaDecode_128)
      (by rw [show ((128:ℤ):ℝ)/255.0 = (128:ℝ)/255.0 by norm_num]; exact gammaDecode_128)
      (by positivity)
      (by rw [hxc, hyc, inLampsReach_iff]; norm_num [crossProduct, gamutD])]
  rw [hxc, hyc]
  have hY : (5681/10761 : ℝ) ^ (2.4:ℝ) * 0.283881 + (5681/10761 : ℝ) ^ (2.4:ℝ) * 0.668433 +
      (5681/10761 : ℝ) ^ (2.4:ℝ) * 0.047685 = (5681/10761 : ℝ) ^ (2.4:ℝ) * 0.999999 := by
    ring
  rw [hY]

lemma roundTrip_gray :
    (gamutD : Gamut ℝ).ToRGB ((gamutD : Gamut ℝ).ToXyY 128 128 128).1
      ((gamutD : Gamut ℝ).ToXyY 128 128 128).2.1
      ((gamutD : Gamut ℝ).ToXyY 128 128 128).2.2 = some (128, 128, 128) := by
  rw [toXyY_D_gray]
  dsimp only
  have hdiv : ((5681/10761 : ℝ) ^ (2.4:ℝ) * 0.999999) / (999999/3039299) =
      (5681/10761 : ℝ) ^ (2.4:ℝ) * 3.039299 := by
    rw [div_eq_iff (by norm_num : (999999/3039299:ℝ) ≠ 0)]
    ring
  rw [ToRGB_eval_reach (gamutD : Gamut ℝ) (980863/3039299) (999999/3039299)
      ((5681/10761 : ℝ) ^ (2.4:ℝ) * 0.999999)
      ((5681/10761 : ℝ) ^ (2.4:ℝ) * 0.999999411841)
      ((5681/10761 : ℝ) ^ (2.4:ℝ) * 0.999997568879)
      ((5681/10761 : ℝ) ^ (2.4:ℝ) * 1.000000268293)
      (by rw [inLampsReach_iff]; norm_num [crossProduct, gamutD])
      (by norm_num)
      (by rw [hdiv]; ring) (by rw [hdiv]; ring) (by rw [hdiv]; ring)
      (not_lt.mpr (max_le
        (max_le (gammaEncode_gray 0.999999411841 (by norm_num) (by norm_num)).2
          (gammaEncode_gray 0.999997568879 (by norm_num) (by norm_num)).2)
        (gammaEncode_gray 1.000000268293 (by norm_num) (by norm_num)).2))]
  rw [(gammaEncode_gray 0.999999411841 (by norm_num) (by norm_num)).1,
      (gammaEncode_gray 0.999997568879 (by norm_num) (by norm_num)).1,
      (gammaEncode_gray 1.000000268293 (by norm_num) (by norm_num)).1]

/-- C2: for each of the five stated RGB triples the chromaticity produced by
`ToXyY` over the default gamut D is contained in the gamut, and feeding
`ToXyY`'s three outputs into `ToRGB` over the same gamut reproduces the
original triple *exactly* (hence a fortiori within ±1 per channel).  The
white round trip exercises the renormalisation branch (its reconstructed
blue linear channel is 1.000000268293 > 1). -/
theorem C2_roundtrip_in_gamut :
    ((gamutD : Gamut ℝ).inLampsReach ((gamutD : Gamut ℝ).ToXyY 255 0 0).1 ((gamutD : Gamut ℝ).ToXyY 255 0 0).2.1 = true ∧
      (gamutD : Gamut ℝ).ToRGB ((gamutD : Gamut ℝ).ToXyY 255 0 0).1 ((gamutD : Gamut ℝ).ToXyY 255 0 0).2.1 ((gamutD : Gamut ℝ).ToXyY 255 0 0).2.2 = some (255, 0, 0)) ∧
    ((gamutD : Gamut ℝ).inLampsReach ((gamutD : Gamut ℝ).ToXyY 0 255 0).1 ((gamutD : Gamut ℝ).ToXyY 0 255 0).2.1 = true ∧
      (gamutD : Gamut ℝ).ToRGB ((gamutD : Gamut ℝ).ToXyY 0 255 0).1 ((gamutD : Gamut ℝ).ToXyY 0 255 0).2.1 ((gamutD : Gamut ℝ).ToXyY 0 255 0).2.2 = some (0, 255, 0)) ∧
    ((gamutD : Gamut ℝ).inLampsReach ((gamutD : Gamut ℝ).ToXyY 0 0 255).1 ((gamutD : Gamut ℝ).ToXyY 0 0 255).2.1 = true ∧
      (gamutD : Gamut ℝ).ToRGB ((gamutD : Gamut ℝ).ToXyY 0 0 255).1 ((gamutD : Gamut ℝ).ToXyY 0 0 255).2.1 ((gamutD : Gamut ℝ).ToXyY 0 0 255).2.2 = some (0, 0, 255)) ∧
    ((gamutD : Gamut ℝ).inLampsReach ((gamutD : Gamut ℝ).ToXyY 255 255 255).1 ((gamutD : Gamut ℝ).ToXyY 255 255 255).2.1 = true ∧
      (gamutD : Gamut ℝ).ToRGB ((gamutD : Gamut ℝ).ToXyY 255 255 255).1 ((gamutD : Gamut ℝ).ToXyY 255 255 255).2.1 ((gamutD : Gamut ℝ).ToXyY 255 255 255).2.2 = some (255, 255, 255)) ∧
    ((gamutD : Gamut ℝ).inLampsReach ((gamutD : Gamut ℝ).ToXyY 128 128 128).1 ((gamutD : Gamut ℝ).ToXyY 128 128 128).2.1 = true ∧
      (gamutD : Gamut ℝ).ToRGB ((gamutD : Gamut ℝ).ToXyY 128 128 128).1 ((gamutD : Gamut ℝ).ToXyY 128 128 128).2.1 ((gamutD : Gamut ℝ).ToXyY 128 128 128).2.2 = some (128, 128, 128)) := by
  refine ⟨?_, ?_, ?_, ?_, ?_⟩
  · constructor
    · rw [toXyY_D_red]
      dsimp only
      rw [inLampsReach_iff]
      norm_num [crossProduct, gamutD]
    · exact roundTrip_red
  · constructor
    · rw [toXyY_D_green]
      dsimp only
      rw [inLampsReach_iff]
      norm_num [crossProduct, gamutD]
    · exact roundTrip_green
  · constructor
    · rw [toXyY_D_blue]
      dsimp only
      rw [inLampsReach_iff]
      norm_num [crossProduct, gamutD]
    · exact roundTrip_blue
  · constructor
    · rw [toXyY_D_white]
      dsimp only
      rw [inLampsReach_iff]
      norm_num [crossProduct, gamutD]
    · exact roundTrip_white
  · constructor
    · rw [toXyY_D_gray]
      dsimp only
      rw [inLampsReach_iff]
      norm_num [crossProduct, gamutD]
    · exact roundTrip_gray

end hue
